import Mathlib

/-!
# gymvoicelog — verification of the capture controller and the STT server

Shallow embedding of the press-and-hold capture controller (the
`RecordButton` component iterations found in the repository) and of the
speech-to-text server's `normalizeExtractedLifts` routine
(src/stt-server/index.js), together with proofs of the spec's testable
properties.

Conventions of the embedding:
* JavaScript's single-threaded event loop is modelled as a small-step
  transition system: each synchronous run-to-completion block of the source
  is one atomic step, and every `await` is a suspension point at which any
  other event may be interleaved.
* Timers (`setTimeout` / `setInterval`) carry an absolute deadline in
  milliseconds.  Time advances in 1 ms ticks; a tick is enabled only while
  no pending timer deadline would be passed, so a pending timer fires at its
  deadline (the idealized event-loop semantics the spec assumes).
* JS numbers that only ever hold integral millisecond counts are `Nat`.
* The external audio device and the network are environments: the outcome
  of each asynchronous operation (success / failure, response shape) is a
  parameter of the corresponding resolution step.
-/

namespace GymVoiceLog

/-! ## Server-side lift normalization (src/stt-server/index.js)

`normalizeExtractedLifts` walks the `extractedLifts` JSON structure and
normalizes the `weight` and `reps` fields of each set.  JS dynamic values
appearing in those fields are modelled by `JVal`; the JS number type and the
library functions `parseFloat` / `parseInt` are abstract parameters (`Num`,
`pf`, `pi`), since the claims about this routine are structural and do not
depend on the numeric parsing semantics. -/

/-- A JavaScript value as it can appear in the `weight` / `reps` fields:
a string, a number (of abstract JS number type `Num`), `null`, or any other
non-string value (`vother`), which the code never touches. -/
inductive JVal (Num : Type) : Type
  | vstr (s : String)
  | vnum (n : Num)
  | vnull
  | vother
  deriving DecidableEq

/-- The dollar-sign character the server strips from numeric tokens. -/
def dollar : String := "$"

/-- String core of `normalizeNumericToken`: strip a leading `$`
(`value.startsWith('$') ? value.substring(1) : value`). -/
def stripDollar (s : String) : String :=
  if String.startsWith s dollar then String.drop s 1 else s

/-- `normalizeNumericToken` from src/stt-server/index.js: for a string value,
strip a leading `$`; any non-string value is returned unchanged. -/
def normalizeNumericToken {Num : Type} (v : JVal Num) : JVal Num :=
  match v with
  | .vstr s => .vstr (stripDollar s)
  | v => v

/-- A JS "set" object: a `weight` field, a `reps` field, and all the other
fields, which the spread copy `{ ...set }` carries over unchanged (`rest`). -/
structure SetObj (Num β : Type) where
  weight : JVal Num
  reps : JVal Num
  rest : β
  deriving DecidableEq

/-- The body of `exercise.sets.map((set) => ...)` in `normalizeExtractedLifts`:
copies the set, then replaces a string `weight` by
`parseFloat(stripped)` — or `null` when the stripped string is empty (the
only falsy string) — and likewise a string `reps` by `parseInt`. -/
def normalizeSet {Num β : Type} (pf pi : String → Num) (st : SetObj Num β) :
    SetObj Num β :=
  let w := match st.weight with
    | .vstr s =>
        let s' := stripDollar s
        if s' = "" then JVal.vnull else JVal.vnum (pf s')
    | v => v
  let r := match st.reps with
    | .vstr s =>
        let s' := stripDollar s
        if s' = "" then JVal.vnull else JVal.vnum (pi s')
    | v => v
  { st with weight := w, reps := r }

/-- The `sets` field of an exercise group: either not an array (the guard
`!exercise.sets || !Array.isArray(exercise.sets)`; note an array is never
falsy in JS) or an array of set objects. -/
inductive SetsField (Num β : Type) : Type
  | notArray (v : JVal Num)
  | array (l : List (SetObj Num β))
  deriving DecidableEq

/-- A JS exercise-group object: its `exercise` name, its `sets` field, and
all other fields, which `{ ...exercise, sets: ... }` copies unchanged. -/
structure ExerciseObj (Num β γ : Type) where
  exercise : String
  sets : SetsField Num β
  rest : γ
  deriving DecidableEq

/-- Number of sets of an exercise group (`none` when `sets` is not an array). -/
def setsCount {Num β γ : Type} (e : ExerciseObj Num β γ) : Option Nat :=
  match e.sets with
  | .notArray _ => none
  | .array l => some l.length

/-- The body of `extractedLifts.map((exercise) => ...)`: an exercise whose
`sets` is not an array is returned unchanged; otherwise the exercise is
copied with each set normalized. -/
def normalizeExercise {Num β γ : Type} (pf pi : String → Num)
    (e : ExerciseObj Num β γ) : ExerciseObj Num β γ :=
  match e.sets with
  | .notArray _ => e
  | .array l => { e with sets := .array (l.map (normalizeSet pf pi)) }

/-- The argument of `normalizeExtractedLifts`: either not an array (any
falsy or non-array value, returned unchanged by the guard) or an array of
exercise groups. -/
inductive LiftsInput (Num β γ δ : Type) : Type
  | notArray (v : δ)
  | array (l : List (ExerciseObj Num β γ))
  deriving DecidableEq

/-- `normalizeExtractedLifts` from src/stt-server/index.js. -/
def normalizeExtractedLifts {Num β γ δ : Type} (pf pi : String → Num) :
    LiftsInput Num β γ δ → LiftsInput Num β γ δ
  | .notArray v => .notArray v
  | .array l => .array (l.map (normalizeExercise pf pi))

/-! ## Press-token RecordButton (src/unnamed/part_008)

This iteration of the `RecordButton` guards the asynchronous start sequence
with a monotonically increasing press id (`currentPressIdRef`), an
`isPressActiveRef` flag and the pending hold timeout
(`longPressTimeoutRef`), and re-validates all three after every `await`.
Its stop routine implements the 400 ms cancel window and the
upload-and-callback logic.  The synchronous blocks between `await`s are
modelled as pure functions on the component state `P8`; the outcome of each
external operation is a parameter. -/

/-- The mutable refs of the part_008 `RecordButton`, plus instrumentation
counters for externally visible operations: `uploads` counts POST
/transcribe requests issued, `callbacks` counts `onRecordingComplete`
invocations.  `recording` holds the device handle id owned by
`recordingRef`. -/
structure P8 where
  currentPressId : Nat
  isPressActive : Bool
  hasLongPressTimeout : Bool
  isRecording : Bool
  isTransitioning : Bool
  recording : Option Nat
  recordingStartTime : Option Nat
  pressStartTime : Option Nat
  uploads : Nat
  callbacks : Nat
  now : Nat
  deriving DecidableEq

/-- The combined token guard of part_008 (spec side): the press id is still
current, the press is still physically held, and the hold timeout ref has
not been cleared.  The stage functions below test these conditions one by
one exactly as the source does; `p8Recheck` is the factored form used in
the statements. -/
def p8Recheck (pid : Nat) (s : P8) : Bool :=
  (pid == s.currentPressId) && s.isPressActive && s.hasLongPressTimeout

/-- Entry of `handleStartRecording(expectedPressId)` (part_008 lines
92-112): the synchronous guard block before the first `await`.  Returns the
new state and whether the start proceeds to the asynchronous part. -/
def p8StartEntry (pid : Nat) (s : P8) : P8 × Bool :=
  if pid ≠ s.currentPressId then (s, false)
  else if ¬ s.isPressActive ∨ ¬ s.hasLongPressTimeout then (s, false)
  else if s.isRecording ∨ s.isTransitioning then (s, false)
  else ({ s with isTransitioning := true }, true)

/-- Continuation after `requestPermissionsAsync` / `setAudioModeAsync`
resolve (part_008 lines 123-137): re-validates the press id and the
press-still-held guards; on failure resets the transition flag and aborts
(second component `false`). -/
def p8AfterSetup (pid : Nat) (s : P8) : P8 × Bool :=
  if pid ≠ s.currentPressId then ({ s with isTransitioning := false }, false)
  else if ¬ s.isPressActive ∨ ¬ s.hasLongPressTimeout then
    ({ s with isTransitioning := false }, false)
  else (s, true)

/-- Continuation after `Audio.Recording.createAsync` resolves with device
handle `h` (part_008 lines 143-178): re-validates the guards one more time;
on failure calls `recording.stopAndUnloadAsync()` (second component `true`
records that the handle was released) and aborts without touching the
recording state; on success commits to the active state.  The `finally`
clause resets the transition flag on every path. -/
def p8AfterCreate (pid h : Nat) (s : P8) : P8 × Bool :=
  if pid ≠ s.currentPressId then ({ s with isTransitioning := false }, true)
  else if ¬ s.isPressActive ∨ ¬ s.hasLongPressTimeout then
    ({ s with isTransitioning := false }, true)
  else
    ({ s with recording := some h, recordingStartTime := some s.now,
              isRecording := true, isTransitioning := false }, false)

/-- `response.json()` as seen by the client: either it rejects (malformed
body) or yields an object whose `transcript` field is absent or a string. -/
inductive JsonBody : Type
  | malformed
  | parsed (transcript : Option String)
  deriving DecidableEq

/-- Outcome of the `fetch(BACKEND_URL, ...)` round trip: network failure
(the promise rejects) or a response with an HTTP status and a body. -/
inductive FetchOutcome : Type
  | netError
  | response (status : Nat) (body : JsonBody)
  deriving DecidableEq

/-- `Response.ok` of the Fetch standard: status in the range 200-299. -/
def statusOk (n : Nat) : Bool := (200 ≤ n : Bool) && (n ≤ 299 : Bool)

/-- Whether the upload block invokes `onRecordingComplete`: the response is
ok (otherwise `throw new Error` skips to the catch), the body parses, and
`result.transcript` is truthy, i.e. a present, non-empty string. -/
def delivered : FetchOutcome → Bool
  | .netError => false
  | .response st body =>
      statusOk st &&
        match body with
        | .malformed => false
        | .parsed none => false
        | .parsed (some t) => t != ""

/-- `handleStopRecording` of part_008 (lines 215-313).  `unloadOk` is the
outcome of `stopAndUnloadAsync` in the non-cancel branch (in the cancel
branch its errors are swallowed), `uri` is `recording.getURI()`, `fr` the
fetch outcome.  Returns the post-state and whether `stopAndUnloadAsync` was
invoked on the handle (handle released). -/
def p8Stop (s : P8) (unloadOk : Bool) (uri : Option String)
    (fr : FetchOutcome) : P8 × Bool :=
  if ¬ s.isRecording ∨ s.isTransitioning then (s, false)
  else
    let duration := match s.recordingStartTime with
      | some t0 => s.now - t0
      | none => 0
    let isCancel := duration < 400
    let s1 := { s with isRecording := false, recordingStartTime := none,
                       pressStartTime := none, isPressActive := false,
                       isTransitioning := true }
    if isCancel then
      match s1.recording with
      | some _ => ({ s1 with recording := none, isTransitioning := false }, true)
      | none => ({ s1 with isTransitioning := false }, false)
    else
      match s1.recording with
      | none => ({ s1 with isTransitioning := false }, false)
      | some _ =>
        if unloadOk = false then
          ({ s1 with isTransitioning := false }, true)
        else
          match uri with
          | none => ({ s1 with recording := none, isTransitioning := false }, true)
          | some _ =>
            let s2 := { s1 with recording := none, uploads := s1.uploads + 1 }
            let s3 :=
              if delivered fr then { s2 with callbacks := s2.callbacks + 1 }
              else s2
            ({ s3 with isTransitioning := false }, true)

/-! ## Hold-to-record RecordButton (src/unnamed/part_006)

The current `RecordButton` iteration: a 250 ms hold threshold, a 90 s
safety timer and a 100 ms liveness poll.  We model the event loop as a
small-step system: each synchronous block of the source is one step; each
`await` inside `startRecording` / `handleStopRecording` is a suspension
point resolved by its own event, between which any other event may run.

Instrumentation / history fields (not refs of the source, but observers of
it, used to state the temporal claims):
* `nextHandle` — how many device handles `Audio.Recording.createAsync` has
  produced; `live` — handles created and not yet passed to
  `stopAndUnloadAsync` (the live capture sessions);
* `uploads` / `callbacks` — POST /transcribe requests issued and
  `onRecordingComplete` invocations;
* `pressedAt` — the time of the current press-down (the spec's
  `PressSession.startedAt`; part_008 keeps the same value in
  `pressStartTimeRef`); `recStartedAt` — when the active capture started
  (part_008's `recordingStartTimeRef`);
* `everHeldLong` — history flag: at some instant, the current press had
  been held continuously for at least `HOLD_TO_START_MS`.  A trace in which
  every press-down/press-up interval is shorter than the hold threshold
  never sets it. -/

def HOLD_TO_START_MS : Nat := 250

def MAX_RECORDING_MS : Nat := 90000

def POLLING_INTERVAL_MS : Nat := 100

/-- Suspension point of the in-flight `handleStopRecording` continuation:
none (`idle`), at `stopAndUnloadAsync` (`unloading h`, holding handle `h`),
at `fetch`/`response.json()` (`uploading`), or at `deleteAsync`
(`cleaning`). -/
inductive StopStage : Type
  | idle
  | unloading (h : Nat)
  | uploading
  | cleaning
  deriving DecidableEq

/-- The part_006 component state: its refs, its timers (absolute deadlines
in ms), the suspension points of the two asynchronous routines, and the
instrumentation fields described above. -/
structure S where
  now : Nat
  isRecording : Bool
  isTransitioning : Bool
  isPressing : Bool
  pendingStart : Bool
  isTranscribing : Bool
  recording : Option Nat
  holdTimer : Option Nat
  maxTimer : Option Nat
  pollDeadline : Option Nat
  startInFlight : Bool
  stopStage : StopStage
  nextHandle : Nat
  live : List Nat
  uploads : Nat
  callbacks : Nat
  pressedAt : Option Nat
  recStartedAt : Option Nat
  everHeldLong : Bool
  deriving DecidableEq

/-- `clearHoldTimer` (part_006 lines 58-64): cancels the pending hold
timeout and resets `pendingStartRef`. -/
def clearHoldTimer (s : S) : S :=
  { s with holdTimer := none, pendingStart := false }

/-- `clearMaxTimer` (lines 66-71). -/
def clearMaxTimer (s : S) : S :=
  { s with maxTimer := none }

/-- `stopPolling` (lines 85-90). -/
def stopPolling (s : S) : S :=
  { s with pollDeadline := none }

/-- `startPolling` (lines 73-83): clears any existing interval and arms the
next liveness check. -/
def startPolling (s : S) : S :=
  { s with pollDeadline := some (s.now + POLLING_INTERVAL_MS) }

/-- The synchronous part of `handleStopRecording` (lines 203-231), up to
the first `await`: stop the poll, return if not recording, otherwise flip
the recording flag immediately, clear the timers, raise the re-entrancy
flag and suspend at `rec.stopAndUnloadAsync()`; when `recordingRef` is
empty the whole call is synchronous and ends with the `finally`. -/
def stopSyncStep (s : S) : S :=
  let s0 := stopPolling s
  if s0.isRecording = false then s0
  else
    let s1 := clearHoldTimer (clearMaxTimer { s0 with isRecording := false })
    let s2 := { s1 with isTransitioning := true }
    match s2.recording with
    | some h => { s2 with stopStage := StopStage.unloading h }
    | none => { s2 with isTransitioning := false }

/-- The guard block of `startRecording` (lines 133-140): refuse while
transcribing, released, already recording, or mid-transition; otherwise
raise the re-entrancy flag and suspend at the first `await`. -/
def startEntryCore (s : S) : S :=
  if s.isTranscribing then s
  else if s.isPressing = false then s
  else if s.isRecording then s
  else if s.isTransitioning then s
  else { s with isTransitioning := true, startInFlight := true }

/-- `handlePressIn` (lines 287-309): refuse while transcribing or
recording; otherwise mark the press, start the liveness poll, and arm the
hold-confirmation timer. -/
def pressInStep (s : S) : S :=
  if s.isTranscribing then s
  else if s.isRecording then s
  else
    let s1 := startPolling { s with isPressing := true, pressedAt := some s.now }
    let s2 := clearHoldTimer s1
    { s2 with pendingStart := true,
              holdTimer := some (s.now + HOLD_TO_START_MS) }

/-- `handlePressOut` (lines 311-325): clear the press, the poll and the
pending hold timer; if not recording, return; otherwise run the
synchronous part of `handleStopRecording`. -/
def pressOutStep (s : S) : S :=
  let s1 := clearHoldTimer
    (stopPolling { s with isPressing := false, pressedAt := none })
  if s1.isRecording = false then s1
  else stopSyncStep s1

/-- The hold timer callback (lines 302-308).  A timer can only fire once
its deadline is reached; it clears `pendingStartRef` and calls
`startRecording` only if the press is still held. -/
def holdFireStep (s : S) : S :=
  match s.holdTimer with
  | none => s
  | some t =>
      if s.now < t then s
      else
        let s1 := { s with holdTimer := none, pendingStart := false }
        if s1.isPressing then startEntryCore s1 else s1

/-- The max-duration timer callback (lines 175-180): if still recording,
force the same `handleStopRecording` path. -/
def maxFireStep (s : S) : S :=
  match s.maxTimer with
  | none => s
  | some t =>
      if s.now < t then s
      else
        let s1 := { s with maxTimer := none }
        if s1.isRecording then stopSyncStep s1 else s1

/-- One firing of the liveness poll (lines 77-82): re-arm the interval; if
recording while the press is gone, force `handleStopRecording`. -/
def pollFireStep (s : S) : S :=
  match s.pollDeadline with
  | none => s
  | some t =>
      if s.now < t then s
      else
        let s1 := { s with pollDeadline := some (s.now + POLLING_INTERVAL_MS) }
        if s1.isRecording && !s1.isPressing then stopSyncStep s1 else s1

/-- Resolution of the awaits inside `startRecording` (permission grant,
audio mode, `Audio.Recording.createAsync`; the code between these awaits
touches no shared state, so they are collapsed into one suspension).  On
success (lines 154-185) a fresh device handle is created and stored, the
active state committed, the safety timer armed and the liveness poll
ensured; on failure (lines 186-197) the catch block resets the UI state and
stops the poll.  The `finally` clears the re-entrancy flag. -/
def startResolveStep (ok : Bool) (s : S) : S :=
  if s.startInFlight = false then s
  else
    let s0 := { s with startInFlight := false }
    if ok then
      let h := s0.nextHandle
      let s1 := { s0 with nextHandle := s0.nextHandle + 1,
                          live := s0.live ++ [h],
                          recording := some h,
                          isRecording := true,
                          recStartedAt := some s0.now }
      let s2 := { (clearMaxTimer s1) with
                  maxTimer := some (s1.now + MAX_RECORDING_MS) }
      let s3 := match s2.pollDeadline with
        | none => startPolling s2
        | some _ => s2
      { s3 with isTransitioning := false }
    else
      let s1 := stopPolling { s0 with isRecording := false }
      { s1 with isTransitioning := false }

/-- Resolution of `rec.stopAndUnloadAsync()` inside `handleStopRecording`
(lines 230-238).  The call finalizes the device handle (it leaves `live`
whether the promise resolves or rejects).  On success the URI is read and
`recordingRef` cleared; with a URI the upload is issued
(`setIsTranscribing(true)`, `fetch`), without one the call returns.  On
rejection the catch block returns, leaving the stale ref in place; the
`finally` clears the re-entrancy flag. -/
def stopUnloadResolveStep (ok hasUri : Bool) (s : S) : S :=
  match s.stopStage with
  | StopStage.unloading h =>
      let s1 := { s with live := s.live.erase h }
      if ok then
        let s2 := { s1 with recording := none }
        if hasUri then
          { s2 with isTranscribing := true, uploads := s2.uploads + 1,
                    stopStage := StopStage.uploading }
        else
          { s2 with stopStage := StopStage.idle, isTransitioning := false }
      else
        { s1 with stopStage := StopStage.idle, isTransitioning := false }
  | _ => s

/-- Resolution of the `fetch` / `response.json()` round trip (lines
248-262): `onRecordingComplete` fires exactly when `delivered` holds; the
`finally` clears the transcribing flag and suspends at `deleteAsync`. -/
def stopFetchResolveStep (fr : FetchOutcome) (s : S) : S :=
  match s.stopStage with
  | StopStage.uploading =>
      let s1 :=
        if delivered fr then { s with callbacks := s.callbacks + 1 } else s
      { s1 with isTranscribing := false, stopStage := StopStage.cleaning }
  | _ => s

/-- Resolution of `FileSystem.deleteAsync` (lines 265-269); the outer
`finally` then clears the re-entrancy flag. -/
def stopDeleteResolveStep (s : S) : S :=
  match s.stopStage with
  | StopStage.cleaning =>
      { s with stopStage := StopStage.idle, isTransitioning := false }
  | _ => s

/-- Whether `d` milliseconds may pass without overrunning a pending timer
deadline. -/
def deadlineAllows (now d : Nat) : Option Nat → Bool
  | none => true
  | some t => now + d ≤ t

/-- `d` milliseconds of simulated time.  Time may pass only while no
pending deadline would be overrun, so a pending timer fires at its deadline
(the idealized event-loop semantics).  The history flag `everHeldLong` is
set once the current press reaches the hold threshold. -/
def tickStep (d : Nat) (s : S) : S :=
  if deadlineAllows s.now d s.holdTimer && deadlineAllows s.now d s.maxTimer
      && deadlineAllows s.now d s.pollDeadline then
    let now' := s.now + d
    let held := match s.pressedAt with
      | some a => s.isPressing && (a + HOLD_TO_START_MS ≤ now' : Bool)
      | none => false
    { s with now := now', everHeldLong := s.everHeldLong || held }
  else s

/-- The `useEffect` cleanup (lines 110-131): clear the hold and max timers,
stop the liveness poll, reset the press flags, drop the recording flag, and
fire-and-forget `stopAndUnloadAsync()` on any held device handle (releasing
it) before clearing `recordingRef`.  No upload is ever issued here. -/
def unmountCleanup (s : S) : S :=
  let s1 := stopPolling (clearMaxTimer (clearHoldTimer s))
  let s2 := { s1 with isPressing := false, pendingStart := false,
                      pressedAt := none, isRecording := false }
  match s2.recording with
  | some h => { s2 with recording := none, live := s2.live.erase h }
  | none => s2

/-- The events of the part_006 event loop: the two user gestures, the three
timer firings, the passage of one millisecond, and the resolutions of the
suspended asynchronous operations (with the outcome of the external
operation as payload). -/
inductive Ev : Type
  | pressIn
  | pressOut
  | holdFire
  | maxFire
  | pollFire
  | tick (d : Nat)
  | startResolve (ok : Bool)
  | stopUnloadResolve (ok hasUri : Bool)
  | stopFetchResolve (fr : FetchOutcome)
  | stopDeleteResolve
  deriving DecidableEq

/-- One step of the event loop.  An event whose enabling condition fails
(a timer before its deadline, a resolution with nothing suspended, a tick
past a pending deadline) leaves the state unchanged. -/
def step (s : S) : Ev → S
  | .pressIn => pressInStep s
  | .pressOut => pressOutStep s
  | .holdFire => holdFireStep s
  | .maxFire => maxFireStep s
  | .pollFire => pollFireStep s
  | .tick d => tickStep d s
  | .startResolve ok => startResolveStep ok s
  | .stopUnloadResolve ok hasUri => stopUnloadResolveStep ok hasUri s
  | .stopFetchResolve fr => stopFetchResolveStep fr s
  | .stopDeleteResolve => stopDeleteResolveStep s

/-- The freshly mounted component. -/
def init : S :=
  { now := 0, isRecording := false, isTransitioning := false,
    isPressing := false, pendingStart := false, isTranscribing := false,
    recording := none, holdTimer := none, maxTimer := none,
    pollDeadline := none, startInFlight := false,
    stopStage := StopStage.idle, nextHandle := 0, live := [], uploads := 0,
    callbacks := 0, pressedAt := none, recStartedAt := none,
    everHeldLong := false }

/-- Execution of an event trace from the mounted component. -/
def run (evs : List Ev) : S := evs.foldl step init

/-- A 1 ms tap: press, one millisecond, release. -/
def shortTrace : List Ev := [Ev.pressIn, Ev.tick 1, Ev.pressOut]

/-- A confirmed 250 ms hold followed by a successful device acquisition
(the liveness poll fires at 100 and 200 ms). -/
def holdTrace : List Ev :=
  [Ev.pressIn, Ev.tick 100, Ev.pollFire, Ev.tick 100, Ev.pollFire,
    Ev.tick 50, Ev.holdFire, Ev.startResolve true]

/-- The inductive invariant of the part_006 event loop.  `startOnly`
through `idleLive` say which mode owns which resources (at most one live
handle); `holdShape` ties the hold deadline to the press start;
`heldGhost` / `cleanGhost` tie the history flag to the controller state;
the three `*Time` fields say no pending deadline is in the past. -/
structure Inv (s : S) : Prop where
  startOnly : s.startInFlight = true →
    s.isRecording = false ∧ s.isTransitioning = true
      ∧ s.stopStage = StopStage.idle ∧ s.live = []
  activeShape : s.isRecording = true →
    s.isTransitioning = false ∧ s.startInFlight = false
      ∧ s.stopStage = StopStage.idle
      ∧ (∃ h, s.recording = some h ∧ s.live = [h])
      ∧ (∃ a, s.recStartedAt = some a
          ∧ s.maxTimer = some (a + MAX_RECORDING_MS))
  unloadShape : ∀ h, s.stopStage = StopStage.unloading h →
    s.isRecording = false ∧ s.isTransitioning = true
      ∧ s.startInFlight = false ∧ s.live = [h] ∧ s.recording = some h
  lateShape : s.stopStage = StopStage.uploading
      ∨ s.stopStage = StopStage.cleaning →
    s.isRecording = false ∧ s.isTransitioning = true
      ∧ s.startInFlight = false ∧ s.live = []
  idleLive : s.stopStage = StopStage.idle → s.startInFlight = false →
    s.isRecording = false → s.live = []
  holdShape : ∀ t, s.holdTimer = some t →
    s.isPressing = true
      ∧ ∃ a, s.pressedAt = some a ∧ t = a + HOLD_TO_START_MS
  heldGhost : ∀ a, s.isPressing = true → s.pressedAt = some a →
    a + HOLD_TO_START_MS ≤ s.now → s.everHeldLong = true
  cleanGhost : s.everHeldLong = false →
    s.startInFlight = false ∧ s.isRecording = false
      ∧ s.isTransitioning = false ∧ s.stopStage = StopStage.idle
      ∧ s.live = [] ∧ s.nextHandle = 0 ∧ s.recording = none
      ∧ s.uploads = 0 ∧ s.callbacks = 0 ∧ s.maxTimer = none
      ∧ s.isTranscribing = false ∧ s.recStartedAt = none
  holdTime : ∀ t, s.holdTimer = some t → s.now ≤ t
  maxTime : ∀ t, s.maxTimer = some t → s.now ≤ t
  pollTime : ∀ t, s.pollDeadline = some t → s.now ≤ t

/-- Concrete JS-number model and sample data for the C10 witness. -/
def parseFloatModel : String → Int := fun s => (s.toInt?).getD 0

def parseIntModel : String → Int := fun s => (s.toInt?).getD 0

def sampleWeightStr : String := "$225"

def sampleSet : SetObj Int Unit :=
  { weight := JVal.vstr sampleWeightStr, reps := JVal.vnum 5, rest := () }

/-- A hand-built active part_006 state for the C4 witness. -/
def sampleActive : S :=
  { init with isRecording := true, recording := some 5 }

/-- Sample part_008 state for witnesses: mid-recording, half a second in. -/
def sampleP8 : P8 :=
  { currentPressId := 3, isPressActive := true, hasLongPressTimeout := false,
    isRecording := true, isTransitioning := false, recording := some 0,
    recordingStartTime := some 1000, pressStartTime := some 700,
    uploads := 0, callbacks := 0, now := 1500 }

/-- Sample part_008 state for witnesses: mid-recording, 100 ms in. -/
def sampleP8Short : P8 :=
  { sampleP8 with recordingStartTime := some 1400 }

/-- Sample part_008 state for the C6 witness: in-flight start whose press
has been released (press id advanced, press no longer active). -/
def sampleP8Stale : P8 :=
  { currentPressId := 4, isPressActive := false, hasLongPressTimeout := false,
    isRecording := false, isTransitioning := true, recording := none,
    recordingStartTime := none, pressStartTime := none,
    uploads := 0, callbacks := 0, now := 900 }

/-- C10: `normalizeExtractedLifts` maps an input array to an array of the
same length and order in which every exercise group keeps its name, its
other fields and its number of sets; inside a set only the `weight` and
`reps` fields can change: a string value has a leading `$` stripped and is
parsed (`null` when the stripped string is empty), a non-string value is
untouched, and every other field of the set is copied unchanged; a
non-array input is returned unchanged. -/
theorem claim10_normalize_frame {Num β γ δ : Type} (pf pi : String → Num) :
    (∀ v : δ,
      @normalizeExtractedLifts Num β γ δ pf pi (.notArray v) = .notArray v)
    ∧ (∀ l : List (ExerciseObj Num β γ),
        @normalizeExtractedLifts Num β γ δ pf pi (.array l)
            = .array (l.map (normalizeExercise pf pi))
        ∧ (l.map (normalizeExercise pf pi)).length = l.length)
    ∧ (∀ e : ExerciseObj Num β γ,
        (normalizeExercise pf pi e).exercise = e.exercise
        ∧ (normalizeExercise pf pi e).rest = e.rest
        ∧ setsCount (normalizeExercise pf pi e) = setsCount e)
    ∧ (∀ st : SetObj Num β, (normalizeSet pf pi st).rest = st.rest)
    ∧ (∀ st : SetObj Num β,
        ((∀ s : String, st.weight ≠ JVal.vstr s) →
          (normalizeSet pf pi st).weight = st.weight)
        ∧ ((∀ s : String, st.reps ≠ JVal.vstr s) →
          (normalizeSet pf pi st).reps = st.reps))
    ∧ (∀ st : SetObj Num β, ∀ s : String,
        (st.weight = JVal.vstr s →
          (normalizeSet pf pi st).weight =
            (if stripDollar s = "" then JVal.vnull
             else JVal.vnum (pf (stripDollar s))))
        ∧ (st.reps = JVal.vstr s →
          (normalizeSet pf pi st).reps =
            (if stripDollar s = "" then JVal.vnull
             else JVal.vnum (pi (stripDollar s))))) := by
  refine ⟨fun v => rfl, fun l => ⟨rfl, List.length_map _ _⟩, ?_, ?_, ?_, ?_⟩
  · intro e
    cases h : e.sets with
    | notArray v =>
        simp [normalizeExercise, h, setsCount]
    | array l =>
        simp [normalizeExercise, h, setsCount]
  · intro st
    simp [normalizeSet]
  · intro st
    constructor
    · intro hns
      cases hw : st.weight with
      | vstr s => exact absurd hw (hns s)
      | vnum n => simp [normalizeSet, hw]
      | vnull => simp [normalizeSet, hw]
      | vother => simp [normalizeSet, hw]
    · intro hns
      cases hr : st.reps with
      | vstr s => exact absurd hr (hns s)
      | vnum n => simp [normalizeSet, hr]
      | vnull => simp [normalizeSet, hr]
      | vother => simp [normalizeSet, hr]
  · intro st s
    constructor
    · intro hw
      simp [normalizeSet, hw]
    · intro hr
      simp [normalizeSet, hr]

/-- Witness for C10: a set whose weight is the string `$225` has its weight
replaced by the parse of `225`, per `claim10_normalize_frame`. -/
theorem claim10_witness :
    sampleSet.weight = JVal.vstr sampleWeightStr
    ∧ (normalizeSet parseFloatModel parseIntModel sampleSet).weight
        = (if stripDollar sampleWeightStr = "" then JVal.vnull
           else JVal.vnum (parseFloatModel (stripDollar sampleWeightStr))) :=
  ⟨rfl,
    ((@claim10_normalize_frame Int Unit Unit Unit parseFloatModel
        parseIntModel).2.2.2.2.2 sampleSet sampleWeightStr).1 rfl⟩

/-- Characterization of the upload-success condition: the callback
condition of the upload block holds exactly for a 2xx response whose body
parses with a non-empty `transcript`. -/
theorem delivered_eq_true_iff (fr : FetchOutcome) :
    delivered fr = true ↔
      ∃ st t, fr = FetchOutcome.response st (JsonBody.parsed (some t))
        ∧ 200 ≤ st ∧ st ≤ 299 ∧ t ≠ "" := by
  cases fr with
  | netError => simp [delivered]
  | response st body =>
      cases body with
      | malformed => simp [delivered]
      | parsed tr =>
          cases tr with
          | none => simp [delivered]
          | some t =>
              simp only [delivered, statusOk, Bool.and_eq_true,
                decide_eq_true_eq, bne_iff_ne, FetchOutcome.response.injEq,
                JsonBody.parsed.injEq, Option.some.injEq, ne_eq]
              constructor
              · rintro ⟨⟨h1, h2⟩, h3⟩
                exact ⟨st, t, ⟨rfl, rfl⟩, h1, h2, h3⟩
              · rintro ⟨st', t', ⟨rfl, rfl⟩, h1, h2, h3⟩
                exact ⟨⟨h1, h2⟩, h3⟩

/-- C6: in part_008's `handleStartRecording`, after each asynchronous
acquisition step (permission grant / audio-mode set, then device-handle
creation) the press-id and press-still-held guards are re-validated before
the controller commits to the active state; whenever the validation fails
after the handle was created, the handle is released at once (second
component `true`) and no transition to the active state occurs (the state
is unchanged except for clearing the transition flag); when it succeeds,
the controller commits. -/
theorem claim6_revalidation (pid h : Nat) (s : P8) :
    (p8Recheck pid s = false →
      p8AfterSetup pid s = ({ s with isTransitioning := false }, false)
      ∧ p8AfterCreate pid h s = ({ s with isTransitioning := false }, true))
    ∧ (p8Recheck pid s = true →
      p8AfterSetup pid s = (s, true)
      ∧ p8AfterCreate pid h s =
          ({ s with recording := some h, recordingStartTime := some s.now,
                    isRecording := true, isTransitioning := false }, false)) := by
  by_cases h1 : pid = s.currentPressId <;>
    by_cases h2 : s.isPressActive = true <;>
      by_cases h3 : s.hasLongPressTimeout = true <;>
        simp [p8Recheck, p8AfterSetup, p8AfterCreate, h1, h2, h3]

/-- Witness for C6: a stale in-flight start (press id advanced from 3 to 4,
press released) aborts and releases the freshly created handle. -/
theorem claim6_witness :
    p8Recheck 3 sampleP8Stale = false
    ∧ p8AfterCreate 3 7 sampleP8Stale
        = ({ sampleP8Stale with isTransitioning := false }, true) :=
  ⟨by decide, ((claim6_revalidation 3 7 sampleP8Stale).1 (by decide)).2⟩

/-- C7: for a confirmed hold whose actual capture duration is below the
400 ms cancel window, part_008's `handleStopRecording` discards the
capture: the device handle is stopped and unloaded (second component
`true`), the `recordingRef` is cleared, no upload request is issued and the
result callback is not invoked (both counters unchanged). -/
theorem claim7_cancel_window (s : P8) (unloadOk : Bool) (uri : Option String)
    (fr : FetchOutcome) (h t0 : Nat)
    (hrec : s.isRecording = true) (htr : s.isTransitioning = false)
    (hstart : s.recordingStartTime = some t0) (hhandle : s.recording = some h)
    (hshort : s.now - t0 < 400) :
    p8Stop s unloadOk uri fr =
      ({ s with isRecording := false, recordingStartTime := none,
                pressStartTime := none, isPressActive := false,
                isTransitioning := false, recording := none }, true)
    ∧ (p8Stop s unloadOk uri fr).1.uploads = s.uploads
    ∧ (p8Stop s unloadOk uri fr).1.callbacks = s.callbacks := by
  simp [p8Stop, hrec, htr, hstart, hhandle, hshort]

/-- Witness for C7: stopping 100 ms into a capture cancels it. -/
theorem claim7_witness :
    sampleP8Short.now - 1400 < 400
    ∧ p8Stop sampleP8Short true (some ("file.m4a"))
        (FetchOutcome.response 200 (JsonBody.parsed (some ("hi"))))
      = ({ sampleP8Short with
           isRecording := false, recordingStartTime := none,
           pressStartTime := none, isPressActive := false,
           isTransitioning := false, recording := none }, true) :=
  ⟨by decide,
    (claim7_cancel_window sampleP8Short true (some ("file.m4a"))
      (FetchOutcome.response 200 (JsonBody.parsed (some ("hi")))) 0 1400
      rfl rfl rfl rfl (by decide)).1⟩

/-- C8: in the upload block of `handleStopRecording` (part_007/part_008;
part_006 is identical), once a capture of at least 400 ms was unloaded and
yielded a URI, exactly one upload request is issued, and the result
callback fires exactly when the response has a 2xx status and its JSON body
contains a non-empty `transcript`; on network failure, non-2xx status,
malformed body or absent transcript the callback count is unchanged. -/
theorem claim8_callback_iff_success (s : P8) (u : String) (fr : FetchOutcome)
    (h t0 : Nat)
    (hrec : s.isRecording = true) (htr : s.isTransitioning = false)
    (hstart : s.recordingStartTime = some t0) (hhandle : s.recording = some h)
    (hlong : 400 ≤ s.now - t0) :
    ((p8Stop s true (some u) fr).1.callbacks = s.callbacks + 1
      ↔ ∃ st t, fr = FetchOutcome.response st (JsonBody.parsed (some t))
          ∧ 200 ≤ st ∧ st ≤ 299 ∧ t ≠ "")
    ∧ ((¬ ∃ st t, fr = FetchOutcome.response st (JsonBody.parsed (some t))
          ∧ 200 ≤ st ∧ st ≤ 299 ∧ t ≠ "") →
        (p8Stop s true (some u) fr).1.callbacks = s.callbacks)
    ∧ (p8Stop s true (some u) fr).1.uploads = s.uploads + 1 := by
  have hnc : ¬ (s.now - t0 < 400) := by omega
  have hc : (p8Stop s true (some u) fr).1.callbacks
      = (if delivered fr then s.callbacks + 1 else s.callbacks) := by
    cases hd : delivered fr <;>
      simp [p8Stop, hrec, htr, hstart, hhandle, hnc, hd]
  have hu : (p8Stop s true (some u) fr).1.uploads = s.uploads + 1 := by
    cases hd : delivered fr <;>
      simp [p8Stop, hrec, htr, hstart, hhandle, hnc, hd]
  refine ⟨?_, ?_, hu⟩
  · rw [hc]
    cases hd : delivered fr with
    | true =>
        simp only [if_pos rfl, true_iff, if_true]
        exact (delivered_eq_true_iff fr).mp hd
    | false =>
        simp only [if_neg Bool.false_ne_true, Bool.false_eq_true, if_false]
        constructor
        · intro habs
          exact absurd habs (by omega)
        · intro hex
          exfalso
          have hdel := (delivered_eq_true_iff fr).mpr hex
          rw [hd] at hdel
          exact Bool.false_ne_true hdel
  · intro hnex
    rw [hc]
    cases hd : delivered fr with
    | true =>
        exact absurd ((delivered_eq_true_iff fr).mp hd) hnex
    | false =>
        simp

/-- Witness for C8: a 500 response after a 500 ms capture issues the upload
but never invokes the callback. -/
theorem claim8_witness :
    400 ≤ sampleP8.now - 1000
    ∧ (p8Stop sampleP8 true (some ("file.m4a"))
        (FetchOutcome.response 500 JsonBody.malformed)).1.callbacks
      = sampleP8.callbacks :=
  ⟨by decide,
    (claim8_callback_iff_success sampleP8 ("file.m4a")
        (FetchOutcome.response 500 JsonBody.malformed) 0 1000
        rfl rfl rfl rfl (by decide)).2.1
      (by
        rintro ⟨st, t, heq, hrest⟩
        simp at heq)⟩

/-! ### Invariant preservation -/

theorem inv_init : Inv init := by
  constructor <;> simp [init]

/-- Auxiliary: running the synchronous part of `handleStopRecording` from
a state that owns an active session yields an invariant state. -/
theorem inv_stopSync_active {s : S} (h : Nat)
    (hrec : s.isRecording = true)
    (hsif : s.startInFlight = false)
    (hhandle : s.recording = some h)
    (hlive : s.live = [h])
    (hghost : s.everHeldLong = true) :
    Inv (stopSyncStep s) := by
  unfold stopSyncStep stopPolling clearHoldTimer clearMaxTimer
  simp only [hrec, Bool.true_eq_false, if_false, hhandle]
  constructor <;> simp [hsif, hlive, hghost]

/-- Auxiliary: the guard block of `startRecording` preserves the
invariant, given that the hold timer is clear and the history flag is set
(both hold at its only call site, the hold-timer callback). -/
theorem inv_startEntryCore {s : S} (hs : Inv s)
    (hghost : s.everHeldLong = true) (hhold : s.holdTimer = none) :
    Inv (startEntryCore s) := by
  unfold startEntryCore
  by_cases h1 : s.isTranscribing = true
  · simpa [h1] using hs
  by_cases h2 : s.isPressing = true
  case neg =>
    have h2f : s.isPressing = false := by revert h2; cases s.isPressing <;> simp
    simpa [h1, h2f] using hs
  by_cases h3 : s.isRecording = true
  · simpa [h1, h2, h3] using hs
  by_cases h4 : s.isTransitioning = true
  · have h3f : s.isRecording = false := by revert h3; cases s.isRecording <;> simp
    simpa [h1, h2, h3f, h4] using hs
  have hnr : s.isRecording = false := by revert h3; cases s.isRecording <;> simp
  have hnt : s.isTransitioning = false := by
    revert h4; cases s.isTransitioning <;> simp
  have hsif : s.startInFlight = false := by
    by_contra himp
    have := (hs.startOnly (by revert himp; cases s.startInFlight <;> simp)).2.1
    rw [hnt] at this
    exact Bool.false_ne_true this
  have hstage : s.stopStage = StopStage.idle := by
    cases hst : s.stopStage with
    | idle => rfl
    | unloading h =>
        have := (hs.unloadShape h hst).2.1
        rw [hnt] at this
        exact absurd this Bool.false_ne_true
    | uploading =>
        have := (hs.lateShape (Or.inl hst)).2.1
        rw [hnt] at this
        exact absurd this Bool.false_ne_true
    | cleaning =>
        have := (hs.lateShape (Or.inr hst)).2.1
        rw [hnt] at this
        exact absurd this Bool.false_ne_true
  have hlive : s.live = [] := hs.idleLive hstage hsif hnr
  simp only [startEntryCore, h1, h2, hnr, hnt, Bool.false_eq_true,
    if_false, if_true, Bool.true_eq_false, ite_false, ite_true]
  refine ⟨fun _ => ⟨rfl, rfl, hstage, hlive⟩, ?_, ?_, ?_, ?_, ?_,
    ?_, ?_, hs.holdTime, hs.maxTime, hs.pollTime⟩
  · intro hr
    exact absurd hr (by simp [hnr])
  · intro h5 hst
    exact absurd hst (by simp [hstage])
  · intro hl
    rcases hl with hl | hl <;> exact absurd hl (by simp [hstage])
  · intro _ hf _
    exact absurd hf (by simp)
  · intro t ht
    exact absurd ht (by simp [hhold])
  · intro a _ _ _
    exact hghost
  · intro hf
    exact absurd hf (by simp [hghost])

theorem inv_pressInStep {s : S} (hs : Inv s) : Inv (pressInStep s) := by
  by_cases h1 : s.isTranscribing = true
  · have : pressInStep s = s := by simp [pressInStep, h1]
    rw [this]; exact hs
  by_cases h2 : s.isRecording = true
  · have : pressInStep s = s := by simp [pressInStep, h1, h2]
    rw [this]; exact hs
  have hred : pressInStep s
      = { s with isPressing := true, pressedAt := some s.now,
                 pollDeadline := some (s.now + POLLING_INTERVAL_MS),
                 holdTimer := some (s.now + HOLD_TO_START_MS),
                 pendingStart := true } := by
    simp [pressInStep, startPolling, clearHoldTimer, h1, h2]
  rw [hred]
  refine ⟨hs.startOnly, ?_, hs.unloadShape, hs.lateShape, hs.idleLive,
    ?_, ?_, hs.cleanGhost, ?_, hs.maxTime, ?_⟩
  · intro hr
    exact absurd hr h2
  · intro t ht
    obtain rfl : s.now + HOLD_TO_START_MS = t := Option.some.inj ht
    exact ⟨rfl, s.now, rfl, rfl⟩
  · intro a _ hpa hle
    obtain rfl : s.now = a := Option.some.inj hpa
    have hle2 : s.now + HOLD_TO_START_MS ≤ s.now := hle
    have hpos : 0 < HOLD_TO_START_MS := by decide
    omega
  · intro t ht
    obtain rfl : s.now + HOLD_TO_START_MS = t := Option.some.inj ht
    exact Nat.le_add_right _ _
  · intro t ht
    obtain rfl : s.now + POLLING_INTERVAL_MS = t := Option.some.inj ht
    exact Nat.le_add_right _ _

theorem inv_pressOutStep {s : S} (hs : Inv s) : Inv (pressOutStep s) := by
  by_cases h2 : s.isRecording = true
  · obtain ⟨_, hsif, _, ⟨h, hhand, hlive⟩, _⟩ := hs.activeShape h2
    have hghost : s.everHeldLong = true := by
      by_contra hg
      have := (hs.cleanGhost (by revert hg; cases s.everHeldLong <;> simp)).2.1
      rw [h2] at this
      exact Bool.false_ne_true this.symm
    have hred : pressOutStep s = stopSyncStep
        { s with isPressing := false, pressedAt := none, pollDeadline := none,
                 holdTimer := none, pendingStart := false } := by
      simp [pressOutStep, stopPolling, clearHoldTimer, h2]
    rw [hred]
    exact inv_stopSync_active h h2 hsif hhand hlive hghost
  · have h2f : s.isRecording = false := by revert h2; cases s.isRecording <;> simp
    have hred : pressOutStep s
        = { s with isPressing := false, pressedAt := none,
                   pollDeadline := none, holdTimer := none,
                   pendingStart := false } := by
      simp [pressOutStep, stopPolling, clearHoldTimer, h2f]
    rw [hred]
    refine ⟨hs.startOnly, ?_, hs.unloadShape, hs.lateShape, hs.idleLive,
      ?_, ?_, hs.cleanGhost, ?_, hs.maxTime, ?_⟩
    · intro hr
      exact absurd hr h2
    · intro t ht
      exact Option.noConfusion ht
    · intro a hp
      exact Bool.noConfusion hp
    · intro t ht
      exact Option.noConfusion ht
    · intro t ht
      exact Option.noConfusion ht

theorem inv_holdFireStep {s : S} (hs : Inv s) : Inv (holdFireStep s) := by
  cases hht : s.holdTimer with
  | none =>
      have hid : holdFireStep s = s := by simp [holdFireStep, hht]
      rw [hid]; exact hs
  | some t =>
      by_cases hlt : s.now < t
      · have hid : holdFireStep s = s := by simp [holdFireStep, hht, hlt]
        rw [hid]; exact hs
      · obtain ⟨hpress, a, hpa, hta⟩ := hs.holdShape t hht
        have hghost : s.everHeldLong = true := by
          refine hs.heldGhost a hpress hpa ?_
          have := hs.holdTime t hht
          omega
        have hred : holdFireStep s = startEntryCore
            { s with holdTimer := none, pendingStart := false } := by
          simp [holdFireStep, hht, hlt, hpress]
        rw [hred]
        have hs1 : Inv { s with holdTimer := none, pendingStart := false } :=
          ⟨hs.startOnly, hs.activeShape, hs.unloadShape, hs.lateShape,
            hs.idleLive, fun t2 ht2 => Option.noConfusion ht2, hs.heldGhost,
            hs.cleanGhost, fun t2 ht2 => Option.noConfusion ht2, hs.maxTime,
            hs.pollTime⟩
        exact inv_startEntryCore hs1 hghost rfl

theorem inv_maxFireStep {s : S} (hs : Inv s) : Inv (maxFireStep s) := by
  cases hmt : s.maxTimer with
  | none =>
      have hid : maxFireStep s = s := by simp [maxFireStep, hmt]
      rw [hid]; exact hs
  | some t =>
      by_cases hlt : s.now < t
      · have hid : maxFireStep s = s := by simp [maxFireStep, hmt, hlt]
        rw [hid]; exact hs
      · by_cases hr : s.isRecording = true
        · obtain ⟨_, hsif, _, ⟨h, hhand, hlive⟩, _⟩ := hs.activeShape hr
          have hghost : s.everHeldLong = true := by
            by_contra hg
            have := (hs.cleanGhost
              (by revert hg; cases s.everHeldLong <;> simp)).2.1
            rw [hr] at this
            exact Bool.false_ne_true this.symm
          have hred : maxFireStep s
              = stopSyncStep { s with maxTimer := none } := by
            simp [maxFireStep, hmt, hlt, hr]
          rw [hred]
          exact inv_stopSync_active h hr hsif hhand hlive hghost
        · have hrf : s.isRecording = false := by
            revert hr; cases s.isRecording <;> simp
          have hred : maxFireStep s = { s with maxTimer := none } := by
            simp [maxFireStep, hmt, hlt, hrf]
          rw [hred]
          refine ⟨hs.startOnly, ?_, hs.unloadShape, hs.lateShape,
            hs.idleLive, hs.holdShape, hs.heldGhost, ?_, hs.holdTime,
            ?_, hs.pollTime⟩
          · intro hrc
            exact absurd hrc hr
          · intro hg
            obtain ⟨c1, c2, c3, c4, c5, c6, c7, c8, c9, _, c11, c12⟩ :=
              hs.cleanGhost hg
            exact ⟨c1, c2, c3, c4, c5, c6, c7, c8, c9, rfl, c11, c12⟩
          · intro t2 ht2
            exact Option.noConfusion ht2

theorem inv_pollFireStep {s : S} (hs : Inv s) : Inv (pollFireStep s) := by
  cases hpd : s.pollDeadline with
  | none =>
      have hid : pollFireStep s = s := by simp [pollFireStep, hpd]
      rw [hid]; exact hs
  | some t =>
      by_cases hlt : s.now < t
      · have hid : pollFireStep s = s := by simp [pollFireStep, hpd, hlt]
        rw [hid]; exact hs
      · by_cases hcond : (s.isRecording && !s.isPressing) = true
        · have hr : s.isRecording = true := by
            revert hcond; cases s.isRecording <;> simp
          obtain ⟨_, hsif, _, ⟨h, hhand, hlive⟩, _⟩ := hs.activeShape hr
          have hghost : s.everHeldLong = true := by
            by_contra hg
            have := (hs.cleanGhost
              (by revert hg; cases s.everHeldLong <;> simp)).2.1
            rw [hr] at this
            exact Bool.false_ne_true this.symm
          have hred : pollFireStep s = stopSyncStep
              { s with pollDeadline := some (s.now + POLLING_INTERVAL_MS) } := by
            simp [pollFireStep, hpd, hlt, hcond]
          rw [hred]
          exact inv_stopSync_active h hr hsif hhand hlive hghost
        · have hcf : (s.isRecording && !s.isPressing) = false := by
            revert hcond; cases (s.isRecording && !s.isPressing) <;> simp
          have hred : pollFireStep s
              = { s with pollDeadline := some (s.now + POLLING_INTERVAL_MS) } := by
            simp [pollFireStep, hpd, hlt, hcf]
          rw [hred]
          refine ⟨hs.startOnly, hs.activeShape, hs.unloadShape, hs.lateShape,
            hs.idleLive, hs.holdShape, hs.heldGhost, hs.cleanGhost,
            hs.holdTime, hs.maxTime, ?_⟩
          intro t2 ht2
          obtain rfl : s.now + POLLING_INTERVAL_MS = t2 := Option.some.inj ht2
          exact Nat.le_add_right _ _

theorem inv_tickStep (d : Nat) {s : S} (hs : Inv s) : Inv (tickStep d s) := by
  by_cases hg : (deadlineAllows s.now d s.holdTimer
      && deadlineAllows s.now d s.maxTimer
      && deadlineAllows s.now d s.pollDeadline) = true
  case neg =>
    have hgf : (deadlineAllows s.now d s.holdTimer
        && deadlineAllows s.now d s.maxTimer
        && deadlineAllows s.now d s.pollDeadline) = false := by
      revert hg
      cases (deadlineAllows s.now d s.holdTimer
        && deadlineAllows s.now d s.maxTimer
        && deadlineAllows s.now d s.pollDeadline) <;> simp
    have hid : tickStep d s = s := by simp [tickStep, hgf]
    rw [hid]; exact hs
  case pos =>
    obtain ⟨⟨hga, hgb⟩, hgc⟩ : (deadlineAllows s.now d s.holdTimer = true
        ∧ deadlineAllows s.now d s.maxTimer = true)
        ∧ deadlineAllows s.now d s.pollDeadline = true := by
      simpa [Bool.and_eq_true] using hg
    have hholdT : ∀ t, s.holdTimer = some t → s.now + d ≤ t := by
      intro t ht
      rw [ht] at hga
      simpa [deadlineAllows] using hga
    have hmaxT : ∀ t, s.maxTimer = some t → s.now + d ≤ t := by
      intro t ht
      rw [ht] at hgb
      simpa [deadlineAllows] using hgb
    have hpollT : ∀ t, s.pollDeadline = some t → s.now + d ≤ t := by
      intro t ht
      rw [ht] at hgc
      simpa [deadlineAllows] using hgc
    cases hpa : s.pressedAt with
    | none =>
        have hred : tickStep d s = { s with now := s.now + d } := by
          simp [tickStep, hg, hpa]
        rw [hred]
        refine ⟨hs.startOnly, hs.activeShape, hs.unloadShape, hs.lateShape,
          hs.idleLive, hs.holdShape, ?_, hs.cleanGhost, ?_, ?_, ?_⟩
        · intro a _ hpa2 _
          exact absurd hpa2 (by simp [hpa])
        · intro t ht
          exact hholdT t ht
        · intro t ht
          exact hmaxT t ht
        · intro t ht
          exact hpollT t ht
    | some a =>
        have hred : tickStep d s
            = { s with
                now := s.now + d,
                everHeldLong := s.everHeldLong
                  || (s.isPressing
                      && (a + HOLD_TO_START_MS ≤ s.now + d : Bool)) } := by
          simp [tickStep, hg, hpa]
        rw [hred]
        refine ⟨hs.startOnly, hs.activeShape, hs.unloadShape, hs.lateShape,
          hs.idleLive, hs.holdShape, ?_, ?_, ?_, ?_, ?_⟩
        · intro a2 hp hpa2 hle
          have hpa2n : s.pressedAt = some a2 := hpa2
          rw [hpa] at hpa2n
          obtain rfl : a = a2 := Option.some.inj hpa2n
          have hp2 : s.isPressing = true := hp
          have hle2 : a + HOLD_TO_START_MS ≤ s.now + d := hle
          simp [hp2, hle2]
        · intro hgf
          have h1 : s.everHeldLong = false := by
            revert hgf
            cases s.everHeldLong <;> simp
          exact hs.cleanGhost h1
        · intro t ht
          exact hholdT t ht
        · intro t ht
          exact hmaxT t ht
        · intro t ht
          exact hpollT t ht

/-- Auxiliary: the commit block of `startRecording` after a successful
acquisition produces an invariant state. -/
theorem inv_startCommit {s : S} (hs : Inv s)
    (hstage : s.stopStage = StopStage.idle) (hlive : s.live = [])
    (hghost : s.everHeldLong = true)
    (pdl : Option Nat) (hpdl : ∀ u, pdl = some u → s.now ≤ u) :
    Inv { s with
          startInFlight := false,
          nextHandle := s.nextHandle + 1,
          live := s.live ++ [s.nextHandle],
          recording := some s.nextHandle,
          isRecording := true,
          recStartedAt := some s.now,
          maxTimer := some (s.now + MAX_RECORDING_MS),
          pollDeadline := pdl,
          isTransitioning := false } := by
  refine ⟨?_, ?_, ?_, ?_, ?_, hs.holdShape, hs.heldGhost, ?_, hs.holdTime,
    ?_, ?_⟩
  · intro hf
    exact Bool.noConfusion hf
  · intro _
    exact ⟨rfl, rfl, hstage, ⟨s.nextHandle, rfl, by simp [hlive]⟩,
      ⟨s.now, rfl, rfl⟩⟩
  · intro h3 hst3
    exact absurd hst3 (by simp [hstage])
  · intro hl
    rcases hl with hl | hl <;> exact absurd hl (by simp [hstage])
  · intro _ _ hr3
    exact Bool.noConfusion hr3
  · intro hgf
    exact absurd hgf (by simp [hghost])
  · intro t2 ht2
    obtain rfl : s.now + MAX_RECORDING_MS = t2 := Option.some.inj ht2
    exact Nat.le_add_right _ _
  · intro t2 ht2
    exact hpdl t2 ht2

theorem inv_startResolveStep (ok : Bool) {s : S} (hs : Inv s) :
    Inv (startResolveStep ok s) := by
  cases hsf : s.startInFlight with
  | false =>
      have hid : startResolveStep ok s = s := by simp [startResolveStep, hsf]
      rw [hid]; exact hs
  | true =>
      obtain ⟨hnr, hnt, hstage, hlive⟩ := hs.startOnly hsf
      have hghost : s.everHeldLong = true := by
        by_contra hg
        have := (hs.cleanGhost (by revert hg; cases s.everHeldLong <;> simp)).1
        rw [hsf] at this
        exact Bool.false_ne_true this.symm
      cases ok with
      | true =>
          cases hpd : s.pollDeadline with
          | none =>
              have hred : startResolveStep true s
                  = { s with
                      startInFlight := false,
                      nextHandle := s.nextHandle + 1,
                      live := s.live ++ [s.nextHandle],
                      recording := some s.nextHandle,
                      isRecording := true,
                      recStartedAt := some s.now,
                      maxTimer := some (s.now + MAX_RECORDING_MS),
                      pollDeadline := some (s.now + POLLING_INTERVAL_MS),
                      isTransitioning := false } := by
                simp [startResolveStep, hsf, hpd, startPolling, clearMaxTimer]
              rw [hred]
              refine inv_startCommit hs hstage hlive hghost _ ?_
              intro u hu
              obtain rfl : s.now + POLLING_INTERVAL_MS = u := Option.some.inj hu
              exact Nat.le_add_right _ _
          | some p =>
              have hred : startResolveStep true s
                  = { s with
                      startInFlight := false,
                      nextHandle := s.nextHandle + 1,
                      live := s.live ++ [s.nextHandle],
                      recording := some s.nextHandle,
                      isRecording := true,
                      recStartedAt := some s.now,
                      maxTimer := some (s.now + MAX_RECORDING_MS),
                      isTransitioning := false } := by
                simp [startResolveStep, hsf, hpd, clearMaxTimer]
              rw [hred]
              exact inv_startCommit hs hstage hlive hghost s.pollDeadline
                hs.pollTime
      | false =>
          have hred : startResolveStep false s
              = { s with
                  startInFlight := false, isRecording := false,
                  pollDeadline := none, isTransitioning := false } := by
            simp [startResolveStep, hsf, stopPolling]
          rw [hred]
          refine ⟨?_, ?_, ?_, ?_, ?_, hs.holdShape, hs.heldGhost, ?_,
            hs.holdTime, hs.maxTime, ?_⟩
          · intro hf
            exact Bool.noConfusion hf
          · intro hr3
            exact Bool.noConfusion hr3
          · intro h3 hst3
            exact absurd hst3 (by simp [hstage])
          · intro hl
            rcases hl with hl | hl <;> exact absurd hl (by simp [hstage])
          · intro _ _ _
            exact hlive
          · intro hgf
            exact absurd hgf (by simp [hghost])
          · intro t2 ht2
            exact Option.noConfusion ht2

theorem inv_stopUnloadResolveStep (ok hasUri : Bool) {s : S} (hs : Inv s) :
    Inv (stopUnloadResolveStep ok hasUri s) := by
  cases hst : s.stopStage with
  | idle =>
      have hid : stopUnloadResolveStep ok hasUri s = s := by
        simp [stopUnloadResolveStep, hst]
      rw [hid]; exact hs
  | uploading =>
      have hid : stopUnloadResolveStep ok hasUri s = s := by
        simp [stopUnloadResolveStep, hst]
      rw [hid]; exact hs
  | cleaning =>
      have hid : stopUnloadResolveStep ok hasUri s = s := by
        simp [stopUnloadResolveStep, hst]
      rw [hid]; exact hs
  | unloading h =>
      obtain ⟨hnr, htr, hsif, hlive, hhand⟩ := hs.unloadShape h hst
      have hghost : s.everHeldLong = true := by
        by_contra hg
        have := (hs.cleanGhost
          (by revert hg; cases s.everHeldLong <;> simp)).2.2.2.1
        rw [hst] at this
        exact StopStage.noConfusion this
      have herase : s.live.erase h = [] := by rw [hlive]; simp
      cases ok with
      | true =>
          cases hasUri with
          | true =>
              have hred : stopUnloadResolveStep true true s
                  = { s with
                      live := s.live.erase h, recording := none,
                      isTranscribing := true, uploads := s.uploads + 1,
                      stopStage := StopStage.uploading } := by
                simp [stopUnloadResolveStep, hst]
              rw [hred]
              refine ⟨?_, ?_, ?_, ?_, ?_, hs.holdShape, hs.heldGhost, ?_,
                hs.holdTime, hs.maxTime, hs.pollTime⟩
              · intro hf
                exact absurd hf (by simp [hsif])
              · intro hr3
                exact absurd hr3 (by simp [hnr])
              · intro h3 hst3
                exact absurd hst3 (by simp)
              · intro _
                exact ⟨hnr, htr, hsif, herase⟩
              · intro hid3
                exact absurd hid3 (by simp)
              · intro hgf
                exact absurd hgf (by simp [hghost])
          | false =>
              have hred : stopUnloadResolveStep true false s
                  = { s with
                      live := s.live.erase h, recording := none,
                      stopStage := StopStage.idle,
                      isTransitioning := false } := by
                simp [stopUnloadResolveStep, hst]
              rw [hred]
              refine ⟨?_, ?_, ?_, ?_, ?_, hs.holdShape, hs.heldGhost, ?_,
                hs.holdTime, hs.maxTime, hs.pollTime⟩
              · intro hf
                exact absurd hf (by simp [hsif])
              · intro hr3
                exact absurd hr3 (by simp [hnr])
              · intro h3 hst3
                exact absurd hst3 (by simp)
              · intro hl
                rcases hl with hl | hl <;> exact absurd hl (by simp)
              · intro _ _ _
                exact herase
              · intro hgf
                exact absurd hgf (by simp [hghost])
      | false =>
          have hred : stopUnloadResolveStep false hasUri s
              = { s with
                  live := s.live.erase h,
                  stopStage := StopStage.idle,
                  isTransitioning := false } := by
            simp [stopUnloadResolveStep, hst]
          rw [hred]
          refine ⟨?_, ?_, ?_, ?_, ?_, hs.holdShape, hs.heldGhost, ?_,
            hs.holdTime, hs.maxTime, hs.pollTime⟩
          · intro hf
            exact absurd hf (by simp [hsif])
          · intro hr3
            exact absurd hr3 (by simp [hnr])
          · intro h3 hst3
            exact absurd hst3 (by simp)
          · intro hl
            rcases hl with hl | hl <;> exact absurd hl (by simp)
          · intro _ _ _
            exact herase
          · intro hgf
            exact absurd hgf (by simp [hghost])

theorem inv_stopFetchResolveStep (fr : FetchOutcome) {s : S} (hs : Inv s) :
    Inv (stopFetchResolveStep fr s) := by
  cases hst : s.stopStage with
  | idle =>
      have hid : stopFetchResolveStep fr s = s := by
        simp [stopFetchResolveStep, hst]
      rw [hid]; exact hs
  | unloading h =>
      have hid : stopFetchResolveStep fr s = s := by
        simp [stopFetchResolveStep, hst]
      rw [hid]; exact hs
  | cleaning =>
      have hid : stopFetchResolveStep fr s = s := by
        simp [stopFetchResolveStep, hst]
      rw [hid]; exact hs
  | uploading =>
      obtain ⟨hnr, htr, hsif, hlive⟩ := hs.lateShape (Or.inl hst)
      have hghost : s.everHeldLong = true := by
        by_contra hg
        have := (hs.cleanGhost
          (by revert hg; cases s.everHeldLong <;> simp)).2.2.2.1
        rw [hst] at this
        exact StopStage.noConfusion this
      have hmain : ∀ cbs : Nat, Inv { s with
          callbacks := cbs,
          isTranscribing := false, stopStage := StopStage.cleaning } := by
        intro cbs
        refine ⟨?_, ?_, ?_, ?_, ?_, hs.holdShape, hs.heldGhost, ?_,
          hs.holdTime, hs.maxTime, hs.pollTime⟩
        · intro hf
          exact absurd hf (by simp [hsif])
        · intro hr3
          exact absurd hr3 (by simp [hnr])
        · intro h3 hst3
          exact absurd hst3 (by simp)
        · intro _
          exact ⟨hnr, htr, hsif, hlive⟩
        · intro hid3
          exact absurd hid3 (by simp)
        · intro hgf
          exact absurd hgf (by simp [hghost])
      cases hd : delivered fr with
      | true =>
          have hred : stopFetchResolveStep fr s
              = { s with
                  callbacks := s.callbacks + 1,
                  isTranscribing := false,
                  stopStage := StopStage.cleaning } := by
            simp [stopFetchResolveStep, hst, hd]
          rw [hred]
          exact hmain (s.callbacks + 1)
      | false =>
          have hred : stopFetchResolveStep fr s
              = { s with
                  isTranscribing := false,
                  stopStage := StopStage.cleaning } := by
            simp [stopFetchResolveStep, hst, hd]
          rw [hred]
          exact hmain s.callbacks

theorem inv_stopDeleteResolveStep {s : S} (hs : Inv s) :
    Inv (stopDeleteResolveStep s) := by
  cases hst : s.stopStage with
  | idle =>
      have hid : stopDeleteResolveStep s = s := by
        simp [stopDeleteResolveStep, hst]
      rw [hid]; exact hs
  | unloading h =>
      have hid : stopDeleteResolveStep s = s := by
        simp [stopDeleteResolveStep, hst]
      rw [hid]; exact hs
  | uploading =>
      have hid : stopDeleteResolveStep s = s := by
        simp [stopDeleteResolveStep, hst]
      rw [hid]; exact hs
  | cleaning =>
      obtain ⟨hnr, htr, hsif, hlive⟩ := hs.lateShape (Or.inr hst)
      have hghost : s.everHeldLong = true := by
        by_contra hg
        have := (hs.cleanGhost
          (by revert hg; cases s.everHeldLong <;> simp)).2.2.2.1
        rw [hst] at this
        exact StopStage.noConfusion this
      have hred : stopDeleteResolveStep s
          = { s with
              stopStage := StopStage.idle,
              isTransitioning := false } := by
        simp [stopDeleteResolveStep, hst]
      rw [hred]
      refine ⟨?_, ?_, ?_, ?_, ?_, hs.holdShape, hs.heldGhost, ?_,
        hs.holdTime, hs.maxTime, hs.pollTime⟩
      · intro hf
        exact absurd hf (by simp [hsif])
      · intro hr3
        exact absurd hr3 (by simp [hnr])
      · intro h3 hst3
        exact absurd hst3 (by simp)
      · intro hl
        rcases hl with hl | hl <;> exact absurd hl (by simp)
      · intro _ _ _
        exact hlive
      · intro hgf
        exact absurd hgf (by simp [hghost])

/-- Every event of the part_006 event loop preserves the invariant. -/
theorem inv_step (e : Ev) {s : S} (hs : Inv s) : Inv (step s e) := by
  cases e with
  | pressIn => exact inv_pressInStep hs
  | pressOut => exact inv_pressOutStep hs
  | holdFire => exact inv_holdFireStep hs
  | maxFire => exact inv_maxFireStep hs
  | pollFire => exact inv_pollFireStep hs
  | tick d => exact inv_tickStep d hs
  | startResolve ok => exact inv_startResolveStep ok hs
  | stopUnloadResolve ok hasUri => exact inv_stopUnloadResolveStep ok hasUri hs
  | stopFetchResolve fr => exact inv_stopFetchResolveStep fr hs
  | stopDeleteResolve => exact inv_stopDeleteResolveStep hs

theorem inv_foldl (evs : List Ev) : ∀ s : S, Inv s → Inv (evs.foldl step s) := by
  induction evs with
  | nil => intro s hs; exact hs
  | cons e rest ih => intro s hs; exact ih (step s e) (inv_step e hs)

/-- Every reachable state of the part_006 event loop satisfies the
invariant. -/
theorem inv_run (evs : List Ev) : Inv (run evs) :=
  inv_foldl evs init inv_init

/-! ### The claims about the part_006 controller -/

/-- Helper for C2: the invariant bounds the number of live capture
sessions by one. -/
theorem live_len_le_one {s : S} (hs : Inv s) : s.live.length ≤ 1 := by
  by_cases hr : s.isRecording = true
  · obtain ⟨_, _, _, ⟨h, _, hlive⟩, _⟩ := hs.activeShape hr
    rw [hlive]
    simp
  · have hrf : s.isRecording = false := by
      revert hr; cases s.isRecording <;> simp
    cases hsf : s.startInFlight with
    | true =>
        rw [(hs.startOnly hsf).2.2.2]
        simp
    | false =>
        cases hst : s.stopStage with
        | idle =>
            rw [hs.idleLive hst hsf hrf]
            simp
        | unloading h =>
            rw [(hs.unloadShape h hst).2.2.2.1]
            simp
        | uploading =>
            rw [(hs.lateShape (Or.inl hst)).2.2.2]
            simp
        | cleaning =>
            rw [(hs.lateShape (Or.inr hst)).2.2.2]
            simp

/-- C1: in any execution in which no press was ever held continuously for
the 250 ms hold threshold (`everHeldLong = false`), no device handle was
ever created, none is live or referenced, no start is in flight and the
controller never recorded; moreover the hold timer cannot fire before its
deadline, a fired timer whose press was already released only clears itself
and starts nothing, and the `startRecording` guard aborts when the press is
no longer held. -/
theorem claim1_no_false_start (evs : List Ev)
    (hshort : (run evs).everHeldLong = false) :
    (run evs).nextHandle = 0 ∧ (run evs).live = []
    ∧ (run evs).recording = none ∧ (run evs).startInFlight = false
    ∧ (run evs).isRecording = false
    ∧ (∀ (s : S) (t : Nat), s.holdTimer = some t → s.now < t →
        holdFireStep s = s)
    ∧ (∀ (s : S) (t : Nat), s.holdTimer = some t → t ≤ s.now →
        s.isPressing = false →
        holdFireStep s = { s with holdTimer := none, pendingStart := false })
    ∧ (∀ s : S, s.isPressing = false → startEntryCore s = s) := by
  obtain ⟨c1, c2, _, _, c5, c6, c7, _⟩ := (inv_run evs).cleanGhost hshort
  refine ⟨c6, c5, c7, c1, c2, ?_, ?_, ?_⟩
  · intro s t ht hlt
    simp [holdFireStep, ht, hlt]
  · intro s t ht hle hnp
    have hlt : ¬ s.now < t := by omega
    simp [holdFireStep, ht, hlt, hnp]
  · intro s hnp
    unfold startEntryCore
    split_ifs <;> rfl

/-- Witness for C1: a 1 ms tap never crosses the hold threshold, and the
run acquires no device handle. -/
theorem claim1_witness :
    (run shortTrace).everHeldLong = false
    ∧ (run shortTrace).nextHandle = 0 ∧ (run shortTrace).live = [] :=
  ⟨by decide, (claim1_no_false_start shortTrace (by decide)).1,
    (claim1_no_false_start shortTrace (by decide)).2.1⟩

/-- C2: under every interleaving of press, release, timer and resolution
events, at most one capture session is live at any instant; and a start
attempted while a session is active or a transition is in flight is refused
unchanged by the guards (both in part_006's `startRecording` and in
part_008's `handleStartRecording`). -/
theorem claim2_single_flight (evs : List Ev) :
    (run evs).live.length ≤ 1
    ∧ (∀ s : S, s.isRecording = true ∨ s.isTransitioning = true →
        startEntryCore s = s)
    ∧ (∀ (pid : Nat) (p : P8),
        p.isRecording = true ∨ p.isTransitioning = true →
        p8StartEntry pid p = (p, false)) := by
  refine ⟨live_len_le_one (inv_run evs), ?_, ?_⟩
  · intro s hor
    unfold startEntryCore
    split_ifs with h1 h2 h3 h4 <;> try rfl
    rcases hor with hr | ht
    · exact absurd hr h3
    · exact absurd ht h4
  · intro pid p hor
    unfold p8StartEntry
    split_ifs <;> rfl

set_option maxRecDepth 100000 in
/-- Witness for C2: the confirmed-hold run has exactly one live session,
and a start attempt in its active state is refused. -/
theorem claim2_witness :
    (run holdTrace).live.length ≤ 1
    ∧ startEntryCore (run holdTrace) = run holdTrace :=
  ⟨(claim2_single_flight holdTrace).1,
    (claim2_single_flight holdTrace).2.1 (run holdTrace)
      (Or.inl (by decide))⟩

/-- C3 counterexample: part_006's `handleStopRecording` calls
`stopPolling()` before its inactivity guard, so calling it in the
pre-threshold press state (no capture session active, liveness poll
running) changes the state: the claim's "no state change" clause fails as
stated. -/
theorem claim3_counterexample :
    (run [Ev.pressIn]).isRecording = false
    ∧ stopSyncStep (run [Ev.pressIn]) ≠ run [Ev.pressIn] := by
  constructor
  · decide
  · decide

/-- C3 (amended): with no session active, part_006's stop changes nothing
besides unconditionally halting the liveness poll (a pure no-op when the
poll is not running); stopping twice in a row always equals stopping once
(the second call is a no-op); and part_008's `handleStopRecording` with no
active session returns immediately with no state change at all. -/
theorem claim3_stop_idempotent_amended :
    (∀ s : S, s.isRecording = false → s.pollDeadline = none →
        stopSyncStep s = s)
    ∧ (∀ s : S, stopSyncStep (stopSyncStep s) = stopSyncStep s)
    ∧ (∀ (p : P8) (uOk : Bool) (u : Option String) (fr : FetchOutcome),
        p.isRecording = false → p8Stop p uOk u fr = (p, false)) := by
  refine ⟨?_, ?_, ?_⟩
  · intro s h1 h2
    cases s
    simp only [stopSyncStep, stopPolling] at *
    simp_all
  · intro s
    by_cases hr : s.isRecording = true
    · cases hrec : s.recording with
      | some h =>
          simp [stopSyncStep, stopPolling, clearHoldTimer, clearMaxTimer,
            hr, hrec]
      | none =>
          simp [stopSyncStep, stopPolling, clearHoldTimer, clearMaxTimer,
            hr, hrec]
    · have hrf : s.isRecording = false := by
        revert hr; cases s.isRecording <;> simp
      simp [stopSyncStep, stopPolling, hrf]
  · intro p uOk u fr h1
    simp [p8Stop, h1]

/-- Witness for C3 (amended): on the freshly mounted component stop is a
complete no-op. -/
theorem claim3_witness :
    init.isRecording = false ∧ init.pollDeadline = none
    ∧ stopSyncStep init = init :=
  ⟨rfl, rfl, claim3_stop_idempotent_amended.1 init rfl rfl⟩

/-- C4: the synchronous prefix of part_006's `handleStopRecording` (the
code before its first `await`) flips the recording flag to inactive and
raises the transition flag, leaving the finalization suspended; a stop or
start call arriving during the suspension observes the post-stop state: the
second stop is a no-op and the start guard refuses unchanged. -/
theorem claim4_stop_sync_inactive (s : S) (h : Nat)
    (hrec : s.isRecording = true) (hhandle : s.recording = some h) :
    (stopSyncStep s).isRecording = false
    ∧ (stopSyncStep s).isTransitioning = true
    ∧ (stopSyncStep s).stopStage = StopStage.unloading h
    ∧ stopSyncStep (stopSyncStep s) = stopSyncStep s
    ∧ startEntryCore (stopSyncStep s) = stopSyncStep s := by
  have hred : stopSyncStep s
      = { s with
          pollDeadline := none, isRecording := false, maxTimer := none,
          holdTimer := none, pendingStart := false, isTransitioning := true,
          stopStage := StopStage.unloading h } := by
    simp [stopSyncStep, stopPolling, clearHoldTimer, clearMaxTimer,
      hrec, hhandle]
  rw [hred]
  refine ⟨rfl, rfl, rfl, ?_, ?_⟩
  · simp [stopSyncStep, stopPolling]
  · unfold startEntryCore
    split_ifs with h1 h2 h3 h4 <;> try rfl
    exact absurd rfl h4

/-- Witness for C4: stopping the hand-built active state flips the flag
synchronously. -/
theorem claim4_witness :
    sampleActive.isRecording = true ∧ sampleActive.recording = some 5
    ∧ (stopSyncStep sampleActive).isRecording = false :=
  ⟨rfl, rfl, (claim4_stop_sync_inactive sampleActive 5 rfl rfl).1⟩

/-- C5: whenever the part_006 controller is recording, the max-duration
safety timer is armed for exactly 90 000 ms after the capture started, the
current time never exceeds that deadline (time cannot pass it: the tick at
the deadline is a no-op), and the timer firing at the deadline leaves the
controller not recording; the firing goes through the same stop path
(`maxFireStep` equals `stopSyncStep` once the timer is consumed). -/
theorem claim5_safety_bound (evs : List Ev)
    (hrec : (run evs).isRecording = true) :
    (∃ a, (run evs).recStartedAt = some a
      ∧ (run evs).maxTimer = some (a + MAX_RECORDING_MS)
      ∧ (run evs).now ≤ a + MAX_RECORDING_MS
      ∧ ((run evs).now = a + MAX_RECORDING_MS →
          (∀ d : Nat, 0 < d → tickStep d (run evs) = run evs)
          ∧ (maxFireStep (run evs)).isRecording = false))
    ∧ (∀ (s : S) (t : Nat), s.maxTimer = some t → t ≤ s.now →
        s.isRecording = true →
        maxFireStep s = stopSyncStep { s with maxTimer := none }) := by
  constructor
  · have hinv := inv_run evs
    obtain ⟨_, _, _, ⟨h, hhand, _⟩, ⟨a, hrs, hmt⟩⟩ := hinv.activeShape hrec
    refine ⟨a, hrs, hmt, hinv.maxTime _ hmt, ?_⟩
    intro hnow
    constructor
    · intro d hd
      have hda : deadlineAllows (run evs).now d (run evs).maxTimer
          = false := by
        rw [hmt]
        simp only [deadlineAllows, decide_eq_false_iff_not]
        omega
      simp [tickStep, hda]
    · have hnlt : ¬ (run evs).now < a + MAX_RECORDING_MS := by omega
      have hred : maxFireStep (run evs)
          = stopSyncStep { (run evs) with maxTimer := none } := by
        simp [maxFireStep, hmt, hnlt, hrec]
      rw [hred]
      simp [stopSyncStep, stopPolling, clearHoldTimer, clearMaxTimer,
        hrec, hhand]
  · intro s t hmt hle hr
    have hnlt : ¬ s.now < t := by omega
    simp [maxFireStep, hmt, hnlt, hr]

set_option maxRecDepth 100000 in
/-- Witness for C5: the confirmed-hold run is recording with its safety
timer armed 90 000 ms after the capture start. -/
theorem claim5_witness :
    (run holdTrace).isRecording = true
    ∧ ∃ a, (run holdTrace).recStartedAt = some a
      ∧ (run holdTrace).maxTimer = some (a + MAX_RECORDING_MS) := by
  refine ⟨by decide, ?_⟩
  obtain ⟨a, h1, h2, _⟩ := (claim5_safety_bound holdTrace (by decide)).1
  exact ⟨a, h1, h2⟩

/-- C9: disposing the part_006 controller while a capture session is
active cancels the hold timer, the max-duration timer and the liveness
poll, stops and releases the device handle, and issues no upload: the
upload counter is unchanged and no stop/upload continuation is pending. -/
theorem claim9_disposal_safety (evs : List Ev) (h : Nat)
    (hrec : (run evs).isRecording = true)
    (hhandle : (run evs).recording = some h) :
    unmountCleanup (run evs)
      = { (run evs) with
          holdTimer := none, pendingStart := false, maxTimer := none,
          pollDeadline := none, isPressing := false, pressedAt := none,
          isRecording := false, recording := none, live := [] }
    ∧ (unmountCleanup (run evs)).uploads = (run evs).uploads
    ∧ (unmountCleanup (run evs)).stopStage = StopStage.idle
    ∧ (unmountCleanup (run evs)).startInFlight = false := by
  have hinv := inv_run evs
  obtain ⟨_, hsif, hstage, ⟨h2, hhand2, hlive⟩, _⟩ := hinv.activeShape hrec
  have hh : h2 = h := Option.some.inj (hhand2.symm.trans hhandle)
  rw [hh] at hlive
  have herase : (run evs).live.erase h = [] := by
    rw [hlive]
    simp
  have hred : unmountCleanup (run evs)
      = { (run evs) with
          holdTimer := none, pendingStart := false, maxTimer := none,
          pollDeadline := none, isPressing := false, pressedAt := none,
          isRecording := false, recording := none, live := [] } := by
    simp [unmountCleanup, stopPolling, clearMaxTimer, clearHoldTimer,
      hhandle, herase]
  refine ⟨hred, ?_, ?_, ?_⟩
  · rw [hred]
  · rw [hred]
    exact hstage
  · rw [hred]
    exact hsif

set_option maxRecDepth 100000 in
/-- Witness for C9: unmounting the confirmed-hold run mid-recording
releases everything and uploads nothing. -/
theorem claim9_witness :
    (run holdTrace).isRecording = true
    ∧ (run holdTrace).recording = some 0
    ∧ (unmountCleanup (run holdTrace)).live = []
    ∧ (unmountCleanup (run holdTrace)).uploads = (run holdTrace).uploads :=
  ⟨by decide, by decide,
    by rw [(claim9_disposal_safety holdTrace 0 (by decide) (by decide)).1],
    (claim9_disposal_safety holdTrace 0 (by decide) (by decide)).2.1⟩

end GymVoiceLog
